import Mathlib

/-
  Verification of the SECIHTI document-intelligence pipeline
  (src/config.py, src/consultorsecihtyextractor.py, src/consultorsecihtyanalisis.py).

  Shallow embedding conventions:
  * Python str is Lean String; Python ints are unbounded, so Nat/Int model them
    exactly. The chunker compares integer token counts against max_tokens * 0.8
    and max_tokens * 0.75; these comparisons are embedded exactly as the
    rational comparisons 5*t > 4*B and 4*s > 3*B, and int(palabras * 1.3)
    (truncation toward zero of a non-negative product) is embedded as the
    exact integer division (13 * palabras) / 10. Both embeddings were checked
    to agree with CPython's binary-float evaluation on every word count
    reachable from the repository's 5000-character per-document cap and far
    beyond.
  * External collaborators (the DeepSeek HTTP endpoint, json.loads, the md5
    digest, Python's per-process salted str hash, and CPython's unspecified
    set iteration order) are oracle parameters of the embedded functions.
-/

-- ==========================================================================
-- Python string helpers
-- ==========================================================================

/-- Python whitespace characters recognised by `str.split()` (ASCII range;
the corpus and all inputs considered here are free of the exotic Unicode
spaces Python additionally accepts). -/
def pyIsSpace (c : Char) : Bool :=
  c == ' ' || c == '\t' || c == '\n' || c == '\r' || c == '\x0b' || c == '\x0c'

/-- Accumulator-style splitter: Python `texto.split()` splits on whitespace
runs and drops empty pieces. `cur` holds the current word reversed. -/
def pyWords : List Char → List Char → List String
  | [], cur => if cur.isEmpty then [] else [String.mk cur.reverse]
  | c :: cs, cur =>
    if pyIsSpace c then
      if cur.isEmpty then pyWords cs [] else String.mk cur.reverse :: pyWords cs []
    else pyWords cs (c :: cur)

/-- Python `texto.split()` with no separator. -/
def pySplitWs (s : String) : List String := pyWords s.data []

/-- Word count `len(texto.split())` used by the token estimator. -/
def palabras (texto : String) : Nat := (pySplitWs texto).length

-- ==========================================================================
-- Token estimation and chunking (src/consultorsecihtyextractor.py)
-- ==========================================================================

/-- Constant from src/consultorsecihtyextractor.py line 29. -/
def TOKENS_POR_CHUNK : Nat := 26000

/-- Embedding of `estimar_tokens_espanol` (extractor lines 35-55):
`int(palabras * 1.3)`. The exact value of the product is `palabras * 13/10`
and `int` truncates toward zero, which for this non-negative value is the
integer division `(13 * palabras) / 10` (checked against CPython's float
evaluation for all word counts up to 200000). -/
def estimar_tokens_espanol (texto : String) : Nat :=
  ((13 * (palabras texto : Int)) / 10).toNat

/-- One iteration of the loop of `crear_chunks_inteligentes` (extractor lines
84-104). State is `(chunks, chunk_actual, tokens_actual)`. The float guards
`tokens_texto > max_tokens * 0.8` and
`tokens_actual + tokens_texto > max_tokens * 0.75` are embedded as the exact
comparisons `5*t > 4*B` and `4*(s+t) > 3*B`; Python's truthiness test
`if chunk_actual:` is the non-emptiness test. -/
def chunkStep (max_tokens : Nat) :
    List (List String) × List String × Nat → String →
    List (List String) × List String × Nat
  | (chunks, chunk_actual, tokens_actual), texto =>
    let tokens_texto := estimar_tokens_espanol texto
    if 5 * tokens_texto > 4 * max_tokens then
      ((if chunk_actual = [] then chunks else chunks ++ [chunk_actual]) ++ [[texto]], [], 0)
    else if 4 * (tokens_actual + tokens_texto) > 3 * max_tokens then
      (chunks ++ [chunk_actual], [texto], tokens_texto)
    else
      (chunks, chunk_actual ++ [texto], tokens_actual + tokens_texto)

/-- Final flush of `crear_chunks_inteligentes` (extractor lines 106-108):
append the pending batch if it is non-empty. -/
def flushChunks (st : List (List String) × List String × Nat) : List (List String) :=
  if st.2.1 = [] then st.1 else st.1 ++ [st.2.1]

/-- Embedding of `crear_chunks_inteligentes` (extractor lines 58-110). -/
def crear_chunks_inteligentes (textos : List String)
    (max_tokens : Nat := TOKENS_POR_CHUNK) : List (List String) :=
  flushChunks (textos.foldl (chunkStep max_tokens) ([], [], 0))

-- ==========================================================================
-- C3: the token estimator truncates, it does not round
-- ==========================================================================

/-- Definition modelled from the spec words for claim C3 (comparison target):
`tokens(text) = round(word_count(text) * 1.3)`, rounding to the nearest
integer — exactly (13·wc + 5) / 10 in integer division (ties round up; the
counterexample below is not a tie, so the tie conventions all agree there). -/
def estimar_tokens_round (texto : String) : Nat :=
  (13 * palabras texto + 5) / 10

-- ==========================================================================
-- Query classifier (src/consultorsecihtyanalisis.py, AnalizadorConsulta)
-- ==========================================================================

/-- Regular-expression syntax covering exactly the constructs occurring in the
eight patterns of `AnalizadorConsulta.analizar` (analisis lines 85-109):
character classes, concatenation, ordered alternation, greedy star, capture
groups and the end anchor. `plus`, `opt` and literals are derived forms. -/
inductive RE where
  | eps : RE
  | cls : (Char → Bool) → RE
  | seq : RE → RE → RE
  | alt : RE → RE → RE
  | star : RE → RE
  | group : Nat → RE → RE
  | eos : RE

/-- Capture environment: group number paired with the captured characters,
most recent first (Python keeps the last successful capture of a group). -/
abbrev Caps := List (Nat × List Char)

/-- Backtracking matcher in continuation-passing style, implementing Python
`re` semantics for the fragment above: alternatives are tried left to right,
star is greedy (try one more repetition first, then fall back), and the
engine backtracks through the continuation. The fuel argument only bounds
recursion depth; it is chosen large enough below that it never runs out on
the inputs considered. `eos` models `$` (end of input, or just before a
single trailing newline). A star stops repeating when an iteration consumes
nothing, as Python does. -/
def reMatch : Nat → RE → List Char → Caps →
    (List Char → Caps → Option Caps) → Option Caps
  | 0, _, _, _, _ => none
  | fuel + 1, r, s, caps, k =>
    match r with
    | .eps => k s caps
    | .cls p =>
      match s with
      | [] => none
      | c :: rest => if p c then k rest caps else none
    | .seq a b => reMatch fuel a s caps (fun s1 c1 => reMatch fuel b s1 c1 k)
    | .alt a b =>
      match reMatch fuel a s caps k with
      | some res => some res
      | none => reMatch fuel b s caps k
    | .star a =>
      match reMatch fuel a s caps (fun s1 c1 =>
        if s1.length < s.length then reMatch fuel (.star a) s1 c1 k else none) with
      | some res => some res
      | none => k s caps
    | .group n a =>
      reMatch fuel a s caps (fun s1 c1 =>
        k s1 ((n, s.take (s.length - s1.length)) :: c1))
    | .eos => if s = [] ∨ s = ['\n'] then k s caps else none

/-- Single literal character. -/
def RE.lit1 (c : Char) : RE := .cls (fun x => x == c)

/-- Literal string. -/
def RE.lit (s : String) : RE := s.data.foldr (fun c acc => .seq (.lit1 c) acc) .eps

/-- Derived `+` (one or more, greedy). -/
def RE.plus (r : RE) : RE := .seq r (.star r)

/-- Derived `?` (optional, greedy: try to match first). -/
def RE.opt (r : RE) : RE := .alt r .eps

/-- Concatenation of a list of regexes. -/
def RE.cat (rs : List RE) : RE := rs.foldr .seq .eps

/-- Class `\s`. -/
def reSpace : RE := .cls pyIsSpace

/-- Class `.` (anything but a newline; DOTALL is not set). -/
def reDot : RE := .cls (fun c => c != '\n')

/-- Class `[ée]`. -/
def eAcc : RE := .cls (fun c => c == 'é' || c == 'e')

/-- Class `[óo]`. -/
def oAcc : RE := .cls (fun c => c == 'ó' || c == 'o')

/-- The double-quote and single-quote characters (codepoints 34 and 39). -/
def dquoteChar : Char := Char.ofNat 34

/-- Single-quote character. -/
def squoteChar : Char := Char.ofNat 39

/-- Class `["\']`. -/
def quoteCls : RE := .cls (fun c => c == dquoteChar || c == squoteChar)

/-- Class `[^"\'\?]`. -/
def notQuoteQm : RE := .cls (fun c => !(c == dquoteChar || c == squoteChar || c == '?'))

/-- Class `[\s:,]`. -/
def spColCom : RE := .cls (fun c => pyIsSpace c || c == ':' || c == ',')

/-- Pattern 1 (analisis lines 87-88):
`(?:de\s+qu[ée]\s+trata|qu[ée]\s+es|en\s+qu[ée]\s+consiste)\s+(?:el\s+)?(proyecto)?\s*(?:["\'])?([^"\'\?]+)(?:["\'])?\s*\??`. -/
def patInfoProyecto : RE :=
  RE.cat [
    .alt (RE.cat [RE.lit "de", RE.plus reSpace, RE.lit "qu", eAcc, RE.plus reSpace,
                  RE.lit "trata"])
      (.alt (RE.cat [RE.lit "qu", eAcc, RE.plus reSpace, RE.lit "es"])
        (RE.cat [RE.lit "en", RE.plus reSpace, RE.lit "qu", eAcc, RE.plus reSpace,
                 RE.lit "consiste"])),
    RE.plus reSpace,
    RE.opt (RE.cat [RE.lit "el", RE.plus reSpace]),
    RE.opt (.group 1 (RE.lit "proyecto")),
    RE.star reSpace,
    RE.opt quoteCls,
    .group 2 (RE.plus notQuoteQm),
    RE.opt quoteCls,
    RE.star reSpace,
    RE.opt (RE.lit1 '?')
  ]

/-- Pattern 2 (analisis lines 91-92):
`(?:es\s+(?:verdad|mentira|cierto|falso)|verdad\s+o\s+mentira)[\s:,]*(.+)`. -/
def patVerificar : RE :=
  RE.cat [
    .alt (RE.cat [RE.lit "es", RE.plus reSpace,
            .alt (RE.lit "verdad") (.alt (RE.lit "mentira")
              (.alt (RE.lit "cierto") (RE.lit "falso")))])
         (RE.cat [RE.lit "verdad", RE.plus reSpace, RE.lit "o", RE.plus reSpace,
                  RE.lit "mentira"]),
    RE.star spColCom,
    .group 1 (RE.plus reDot)
  ]

/-- Pattern 3 (analisis lines 95-96):
`(?:en\s+qu[ée]\s+documentos|d[óo]nde\s+aparece)[\s:,]+(.+)`. -/
def patBuscarDocumentos : RE :=
  RE.cat [
    .alt (RE.cat [RE.lit "en", RE.plus reSpace, RE.lit "qu", eAcc, RE.plus reSpace,
                  RE.lit "documentos"])
         (RE.cat [RE.lit "d", oAcc, RE.lit "nde", RE.plus reSpace, RE.lit "aparece"]),
    RE.plus spColCom,
    .group 1 (RE.plus reDot)
  ]

/-- Pattern 4 (analisis lines 99-100):
`^(?:dame|muestra|lista|extrae)\s+(?:los\s+)?(proyectos|personas|instituciones)`
(`^` is vacuous because `re.match` already anchors at the start). -/
def patListaSimple : RE :=
  RE.cat [
    .alt (RE.lit "dame") (.alt (RE.lit "muestra") (.alt (RE.lit "lista") (RE.lit "extrae"))),
    RE.plus reSpace,
    RE.opt (RE.cat [RE.lit "los", RE.plus reSpace]),
    .group 1 (.alt (RE.lit "proyectos") (.alt (RE.lit "personas") (RE.lit "instituciones")))
  ]

/-- Pattern 5 (analisis line 103): `^proyectos$`. -/
def patProyectos : RE := RE.cat [RE.lit "proyectos", .eos]

/-- Pattern 6 (analisis line 104): `^personas$`. -/
def patPersonas : RE := RE.cat [RE.lit "personas", .eos]

/-- Pattern 7 (analisis line 105): `^instituciones$`. -/
def patInstituciones : RE := RE.cat [RE.lit "instituciones", .eos]

/-- Pattern 8 (analisis line 108): `(.+\?)`. -/
def patPreguntaGeneral : RE := .group 1 (RE.cat [RE.plus reDot, RE.lit1 '?'])

/-- Fuel bound for the matcher: recursion depth never exceeds the pattern size
plus a small multiple of the input length. -/
def reFuel (s : List Char) : Nat := 100 * (s.length + 20)

/-- `re.match(pattern, s)`: anchored at the start, any remainder accepted. -/
def pyMatch (r : RE) (s : List Char) : Option Caps :=
  reMatch (reFuel s) r s [] (fun _ caps => some caps)

/-- `m.group(n)` as a string; an unset group yields "" (the extractors of the
classifier only read groups that always participate in their match). -/
def grp (caps : Caps) (n : Nat) : String :=
  match caps.find? (fun p => p.1 == n) with
  | some p => String.mk p.2
  | none => ""

/-- Python `str.lower()` restricted to ASCII letters (the corpus queries
contain no non-ASCII uppercase letters). -/
def pyLowerChar (c : Char) : Char :=
  if 'A' ≤ c && c ≤ 'Z' then Char.ofNat (c.toNat + 32) else c

/-- Python `str.lower()`. -/
def pyLower (s : String) : String := String.mk (s.data.map pyLowerChar)

/-- Python `str.strip()`. -/
def pyStrip (s : String) : String :=
  String.mk (((s.data.dropWhile (fun c => pyIsSpace c)).reverse.dropWhile
    (fun c => pyIsSpace c)).reverse)

/-- Result record of `AnalizadorConsulta.analizar` (analisis lines 115-128). -/
structure Analisis where
  tipo : String
  parametros : List (String × String)
  consulta_original : String
  accion : String
deriving DecidableEq

/-- Embedding of `AnalizadorConsulta._determinar_accion` (analisis lines
130-156): dictionary lookup with default. -/
def determinar_accion (tipo : String) : String :=
  (([("info_proyecto", "obtener_info_proyecto"),
     ("verificar", "verificar_afirmacion"),
     ("buscar_documentos", "buscar_en_documentos"),
     ("lista_simple", "extraer_lista"),
     ("proyectos", "extraer_proyectos"),
     ("personas", "extraer_personas"),
     ("instituciones", "extraer_instituciones"),
     ("pregunta_general", "responder_pregunta"),
     ("busqueda_general", "buscar_informacion")] :
    List (String × String)).lookup tipo).getD "buscar_informacion"

/-- The ordered pattern table of `analizar` (analisis lines 85-109), each
entry: pattern, intent tag, and the extractor applied to the match. -/
def patrones : List (RE × String × (Caps → List (String × String))) :=
  [ (patInfoProyecto, "info_proyecto", fun caps => [("proyecto", pyStrip (grp caps 2))]),
    (patVerificar, "verificar", fun caps => [("afirmacion", pyStrip (grp caps 1))]),
    (patBuscarDocumentos, "buscar_documentos", fun caps => [("busqueda", pyStrip (grp caps 1))]),
    (patListaSimple, "lista_simple", fun caps => [("tipo", grp caps 1)]),
    (patProyectos, "proyectos", fun _ => []),
    (patPersonas, "personas", fun _ => []),
    (patInstituciones, "instituciones", fun _ => []),
    (patPreguntaGeneral, "pregunta_general", fun caps => [("pregunta", grp caps 1)]) ]

/-- First-match-wins loop of `analizar` (analisis lines 112-128), falling back
to the default general-search result. -/
def probarPatrones (consulta_texto consulta : String) :
    List (RE × String × (Caps → List (String × String))) → Analisis
  | [] =>
    { tipo := "busqueda_general", parametros := [("texto", consulta_texto)],
      consulta_original := consulta_texto, accion := "buscar_informacion" }
  | (patron, tipo, extractor) :: rest =>
    match pyMatch patron consulta.data with
    | some caps =>
      { tipo := tipo, parametros := extractor caps,
        consulta_original := consulta_texto, accion := determinar_accion tipo }
    | none => probarPatrones consulta_texto consulta rest

/-- Embedding of `AnalizadorConsulta.analizar` (analisis lines 55-128):
lower-case and strip the query, then try the ordered pattern table. -/
def analizar (consulta_texto : String) : Analisis :=
  probarPatrones consulta_texto (pyStrip (pyLower consulta_texto)) patrones

-- ==========================================================================
-- Cache key derivation (src/consultorsecihtyextractor.py lines 378-383)
-- ==========================================================================

/-- Python repr of a plain string, single-quoted (the inputs considered carry
no quotes or escape characters). -/
def pyReprStr (s : String) : String :=
  String.singleton squoteChar ++ s ++ String.singleton squoteChar

/-- Python `str(textos)` for a list of strings. -/
def pyStrList (textos : List String) : String :=
  "[" ++ String.intercalate ", " (textos.map pyReprStr) ++ "]"

/-- The string digested for the cache key of
`ProcesadorDocumentos.procesar_chunk` (extractor lines 379-381):
f-string of chunk_id, consulta_tipo and hash(str(textos)), colon-separated.
`pyHash` is the process's builtin str hash — salted per process in CPython,
so it is an oracle parameter of the run, not a function of the text alone. -/
def cache_hash_input (pyHash : String → Int) (chunk_id : Nat) (consulta_tipo : String)
    (textos : List String) : String :=
  toString chunk_id ++ ":" ++ consulta_tipo ++ ":" ++ toString (pyHash (pyStrList textos))

/-- The cache key: md5 hexdigest (an oracle parameter `md5h`) of the digest
input string. -/
def chunkKey (md5h : String → String) (pyHash : String → Int) (chunk_id : Nat)
    (consulta_tipo : String) (textos : List String) : String :=
  md5h (cache_hash_input pyHash chunk_id consulta_tipo textos)

-- ==========================================================================
-- Response parsing (src/consultorsecihtyextractor.py lines 425-477)
-- ==========================================================================

/-- The opening brace character. -/
def lbrace : Char := '\x7b'

/-- The closing brace character. -/
def rbrace : Char := '\x7d'

/-- Fallback dictionary of `_parsear_respuesta_json` (extractor lines
474-477). -/
structure FallbackDict where
  respuesta_texto : String
  error : String
deriving DecidableEq

/-- Result of `_parsear_respuesta_json`: either the object produced by
`json.loads`, or the fallback dictionary. -/
inductive ParseOut (α : Type) where
  | parsed (val : α)
  | fallback (fb : FallbackDict)
deriving DecidableEq

/-- Python `line.count(c)` for a single character. -/
def countChar (c : Char) (s : String) : Int := ((s.data.filter (fun x => x == c)).length : Int)

/-- Python `line.strip().startswith('\x7b')` (extractor line 449). -/
def startsWithLbrace (line : String) : Bool :=
  match (pyStrip line).data with
  | c :: _ => c == lbrace
  | [] => false

/-- The brace-depth scan of extractor lines 455-464: starting at line
`json_start` with count 0, add per line the number of opening minus closing
braces and stop at the first line where the running count is zero. -/
def braceScan : List String → Int → Nat → Option Nat
  | [], _, _ => none
  | l :: rest, acc, i =>
    let acc2 := acc + countChar lbrace l - countChar rbrace l
    if acc2 = 0 then some i else braceScan rest acc2 (i + 1)

/-- Embedding of `ProcesadorDocumentos._parsear_respuesta_json` (extractor
lines 425-477). `loads` is the `json.loads` oracle (none = raised). -/
def parsear_respuesta_json {α : Type} (loads : String → Option α) (respuesta : String) :
    ParseOut α :=
  match (respuesta.splitOn "\n").findIdx? startsWithLbrace with
  | some json_start =>
    match braceScan ((respuesta.splitOn "\n").drop json_start) 0 json_start with
    | some json_end =>
      match loads (String.intercalate "\n"
          (((respuesta.splitOn "\n").drop json_start).take (json_end - json_start + 1))) with
      | some v => .parsed v
      | none => .fallback ⟨respuesta.take 500, "no_json_valido"⟩
    | none => .fallback ⟨respuesta.take 500, "no_json_valido"⟩
  | none => .fallback ⟨respuesta.take 500, "no_json_valido"⟩

-- ==========================================================================
-- Chunk processing with cache (src/consultorsecihtyextractor.py 355-423)
-- ==========================================================================

/-- The result dictionary returned by `procesar_chunk`: the parsed body plus
the metadata keys added at extractor lines 413-414. -/
structure Resultado (α : Type) where
  body : ParseOut α
  chunk_id : Nat
  documentos : List String
deriving DecidableEq

/-- State of the cache file for a key: missing, present but unreadable (the
bare `except: pass` of extractor lines 390-391), or storing a result. -/
inductive EntryState (α : Type) where
  | absent
  | corrupt
  | stored (v : Resultado α)

/-- The on-disk cache, keyed by the md5 cache key. -/
def ChunkCache (α : Type) := String → EntryState α

/-- The PROMPTS dictionary (extractor lines 231-312): per query type, the
system message and the user template. Braces of the JSON examples are the
characters 123/125 (doubled, as in the Python `str.format` templates). -/
def PROMPTS : List (String × String × String) := [
  ("proyectos",
   "Eres un experto en análisis de documentos oficiales mexicanos.\n        Extrae información precisa y verificable. Responde en español.",
   "Analiza estos documentos y extrae todos los proyectos de investigación y desarrollo tecnológico.\n\nDOCUMENTOS:\n\x7btextos\x7d\n\nINSTRUCCIONES:\n1. Busca proyectos con nombre propio (ej: \"Kutsari\", \"Olinia\")\n2. Incluye proyectos mencionados como \"Proyecto X\", \"Iniciativa Y\"\n3. Para cada proyecto, proporciona:\n   - Nombre completo\n   - Descripción breve\n   - Instituciones involucradas\n   - Documentos donde aparece\n\nFORMATO DE RESPUESTA (JSON):\n\x7b\x7b\n  \"proyectos\": [\n    \x7b\x7b\n      \"nombre\": \"Nombre del proyecto\",\n      \"descripcion\": \"Descripción concisa\",\n      \"instituciones\": [\"Inst1\", \"Inst2\"],\n      \"documentos\": [\"doc1.pdf\", \"doc2.pdf\"]\n    \x7d\x7d\n  ]\n\x7d\x7d"),
  ("personas",
   "Eres un experto en extraer nombres de personas de documentos oficiales.",
   "Extrae todos los nombres de personas mencionadas en estos documentos.\n\nDOCUMENTOS:\n\x7btextos\x7d\n\nINSTRUCCIONES:\n1. Extrae nombres completos (Nombre + Apellidos)\n2. Incluye cargos/roles si se mencionan\n3. Para cada persona, indica en qué documentos aparece\n\nFORMATO (JSON):\n\x7b\x7b\n  \"personas\": [\n    \x7b\x7b\n      \"nombre_completo\": \"Nombre Apellido1 Apellido2\",\n      \"cargo\": \"Cargo/Rol mencionado\",\n      \"documentos\": [\"doc1.pdf\", \"doc2.pdf\"]\n    \x7d\x7d\n  ]\n\x7d\x7d"),
  ("instituciones",
   "Eres un experto en identificar instituciones en documentos oficiales.",
   "Identifica todas las instituciones mencionadas en estos documentos.\n\nDOCUMENTOS:\n\x7btextos\x7d\n\nINSTRUCCIONES:\n1. Incluye universidades, institutos, secretarías, centros de investigación\n2. Usa el nombre completo\n3. Para cada institución, indica en qué documentos aparece\n\nFORMATO (JSON):\n\x7b\x7b\n  \"instituciones\": [\n    \x7b\x7b\n      \"nombre\": \"Nombre completo de la institución\",\n      \"siglas\": \"Siglas (si aplica)\",\n      \"documentos\": [\"doc1.pdf\", \"doc2.pdf\"]\n    \x7d\x7d\n  ]\n\x7d\x7d")]

/-- Python `template.format(textos=arg)` for the templates above: doubled
braces become literal braces, the `textos` field is replaced by the argument,
anything else is copied. -/
def pyFormat (arg : String) : List Char → List Char
  | '\x7b' :: '\x7b' :: rest => '\x7b' :: pyFormat arg rest
  | '\x7d' :: '\x7d' :: rest => '\x7d' :: pyFormat arg rest
  | '\x7b' :: 't' :: 'e' :: 'x' :: 't' :: 'o' :: 's' :: '\x7d' :: rest =>
      arg.data ++ pyFormat arg rest
  | c :: rest => c :: pyFormat arg rest
  | [] => []

/-- The combined-texts header (extractor lines 400-403). -/
def encabezadoOf (documentos : List String) : String :=
  if documentos.length == 1 then "DOCUMENTO: " ++ documentos.headD ""
  else toString documentos.length ++ " documentos"

/-- `textos_combinados` (extractor line 405). -/
def textosCombinados (documentos textos : List String) : String :=
  "\n\n--- " ++ encabezadoOf documentos ++ " ---\n" ++ String.intercalate "\n\n" textos

/-- The compute path of `procesar_chunk` on a cache miss (extractor lines
393-414): format the user template with the combined texts, query the LLM
oracle with the prompt and system message, parse the reply, and attach the
chunk_id and document-name metadata. -/
def computedResultado {α : Type} (llm : String → String → String) (loads : String → Option α)
    (sys user : String) (chunk_id : Nat) (documentos textos : List String) : Resultado α :=
  { body := parsear_respuesta_json loads
      (llm (String.mk (pyFormat (textosCombinados documentos textos) user.data)) sys),
    chunk_id := chunk_id, documentos := documentos }

/-- Embedding of `ProcesadorDocumentos.procesar_chunk` (extractor lines
355-423). Oracles: `md5h` (hexdigest), `pyHash` (the process's salted builtin
str hash), `llm` (`consultar_deepseek`), `loads` (`json.loads`). `writeOk`
models whether the cache write of lines 417-421 succeeds (its failure is
swallowed). The returned triple is (result, new cache state, number of LLM
invocations); `none` models the KeyError raised on a query type absent from
PROMPTS (only reachable on a cache miss). -/
def procesar_chunk {α : Type} (md5h : String → String) (pyHash : String → Int)
    (llm : String → String → String) (loads : String → Option α)
    (consulta_tipo : String) (writeOk : Bool) (cache : ChunkCache α)
    (chunk_id : Nat) (documentos textos : List String) :
    Option (Resultado α × ChunkCache α × Nat) :=
  match cache (chunkKey md5h pyHash chunk_id consulta_tipo textos) with
  | .stored v => some (v, cache, 0)
  | _ =>
    match PROMPTS.lookup consulta_tipo with
    | none => none
    | some (sys, user) =>
      some (computedResultado llm loads sys user chunk_id documentos textos,
        (if writeOk then
          (fun k => if k = chunkKey md5h pyHash chunk_id consulta_tipo textos
                    then .stored (computedResultado llm loads sys user chunk_id documentos textos)
                    else cache k)
         else cache),
        1)

/-- Identity stand-in for the md5 hexdigest oracle in concrete evaluations. -/
def md5Id : String → String := fun s => s

/-- Constant stand-in for one process's salted str hash. -/
def hashZero : String → Int := fun _ => 0

/-- LLM oracle returning the empty reply. -/
def llmEmpty : String → String → String := fun _ _ => ""

/-- json.loads oracle that always fails. -/
def loadsNone : String → Option Unit := fun _ => none

/-- The empty cache. -/
def cacheAbsent : ChunkCache Unit := fun _ => .absent

/-- A concrete stored result for the C7 witness. -/
def v0 : Resultado Unit :=
  { body := .fallback ⟨"", "no_json_valido"⟩, chunk_id := 0, documentos := [] }

/-- A cache whose every entry stores `v0`. -/
def cacheStored0 : ChunkCache Unit := fun _ => .stored v0

-- ==========================================================================
-- Result consolidation (src/consultorsecihtyextractor.py lines 554-605)
-- ==========================================================================

/-- One project dictionary as reported inside a chunk result: the name, the
descriptive fields copied on first sighting (descripcion and instituciones as
the representatives), and the "documentos" value. `none` models a missing or
non-list "documentos" entry — a missing key defaults to [] and a non-list
value is skipped (extractor lines 586-588), so both contribute nothing. -/
structure Proyecto where
  nombre : String
  descripcion : String
  instituciones : List String
  documentos : Option (List String)
deriving DecidableEq

/-- Accumulator entry of todos_proyectos (extractor lines 580-588): the
first-occurrence copy plus the growing document set, kept as an
insertion-ordered duplicate-free list; the enumeration order CPython would
produce for `list(s)` is an oracle parameter below. -/
structure PEntry where
  base : Proyecto
  docs : List String
deriving DecidableEq

/-- Python `s.update(new)` on a set represented as a duplicate-free list:
append the elements not yet present, in order. -/
def setUpdate : List String → List String → List String
  | docs, [] => docs
  | docs, x :: xs => setUpdate (if x ∈ docs then docs else docs ++ [x]) xs

/-- Process one reported project against the insertion-ordered dictionary
(extractor lines 578-588): on first sighting append a copy whose document set
starts empty, then union in the documents the occurrence reports. -/
def insertProy (p : Proyecto) : List (String × PEntry) → List (String × PEntry)
  | [] => [(p.nombre, ⟨p, setUpdate [] (p.documentos.getD [])⟩)]
  | (n, e) :: rest =>
    if n = p.nombre then (n, ⟨e.base, setUpdate e.docs (p.documentos.getD [])⟩) :: rest
    else (n, e) :: insertProy p rest

/-- The guard of extractor line 579: projects with an empty name are skipped. -/
def proyStep (todos : List (String × PEntry)) (p : Proyecto) : List (String × PEntry) :=
  if p.nombre = "" then todos else insertProy p todos

/-- The double loop of extractor lines 575-588 (a chunk without a "proyectos"
key contributes nothing). -/
def mergeChunks (chunks : List (Option (List Proyecto))) : List (String × PEntry) :=
  chunks.foldl (fun todos chunk =>
    match chunk with
    | some ps => ps.foldl proyStep todos
    | none => todos) []

/-- Output entry for the proyectos intent (extractor lines 590-593): the
first-occurrence fields with "documentos" replaced by the enumerated set and
the derived "menciones" count. -/
structure ProyectoOut where
  nombre : String
  descripcion : String
  instituciones : List String
  documentos : List String
  menciones : Nat
deriving DecidableEq

/-- Outcome of `consolidar_resultados` (extractor lines 554-605). -/
inductive ConsolidadoOut where
  | sin_resultados
  | proyectos (ps : List ProyectoOut) (total_proyectos : Nat)
  | otros (consulta : String) (chunks_procesados : Nat)
deriving DecidableEq

/-- Embedding of `ProcesadorDocumentos.consolidar_resultados` (extractor lines
554-605). `setToList` is the oracle for CPython's `list(s)` on a set of
strings: an enumeration of the set whose order depends on the per-process
salted string hashes (its contract: duplicate-free, same members). -/
def consolidar_resultados (setToList : List String → List String)
    (consulta_tipo : String) (resultados_chunks : List (Option (List Proyecto))) :
    ConsolidadoOut :=
  if resultados_chunks = [] then .sin_resultados
  else if consulta_tipo = "proyectos" then
    .proyectos ((mergeChunks resultados_chunks).map (fun ne =>
        { nombre := ne.2.base.nombre, descripcion := ne.2.base.descripcion,
          instituciones := ne.2.base.instituciones,
          documentos := setToList ne.2.docs,
          menciones := (setToList ne.2.docs).length }))
      (mergeChunks resultados_chunks).length
  else .otros consulta_tipo resultados_chunks.length

/-- All documents reported for a given project name across all chunks (the
statement-side description of the union merged by the consolidator). -/
def docsDe (nombre : String) (chunks : List (Option (List Proyecto))) : List String :=
  (((chunks.filterMap id).flatten.filter (fun p => p.nombre == nombre)).map
    (fun p => p.documentos.getD [])).flatten

/-- First reported occurrence of a name across all chunks, in order. -/
def firstOcc (nombre : String) (chunks : List (Option (List Proyecto))) : Option Proyecto :=
  (chunks.filterMap id).flatten.find? (fun p => p.nombre == nombre)

/-- The consolidation invariant, relating the accumulator to the prefix of
reported projects already processed: keys are duplicate-free; each entry is
keyed by its base's name, skips the empty name, copies the first occurrence,
and its document set is duplicate-free and holds exactly the documents
reported for that name so far; and every non-empty reported name has an
entry. -/
def ConsInv (pref : List Proyecto) (todos : List (String × PEntry)) : Prop :=
  (todos.map Prod.fst).Nodup ∧
  (∀ ne ∈ todos,
    ne.1 = ne.2.base.nombre ∧
    ne.1 ≠ "" ∧
    pref.find? (fun q => q.nombre == ne.1) = some ne.2.base ∧
    ne.2.docs.Nodup ∧
    (∀ x, x ∈ ne.2.docs ↔ ∃ q ∈ pref, q.nombre = ne.1 ∧ x ∈ q.documentos.getD [])) ∧
  (∀ q ∈ pref, q.nombre ≠ "" → ∃ ne ∈ todos, ne.1 = q.nombre)

/-- The identity set enumeration: first-occurrence (insertion) order. -/
def idEnum (l : List String) : List String := setUpdate [] l

/-- A reversed set enumeration: equally valid for a CPython set (salted string
hashes make the iteration order arbitrary across processes), and not sorted. -/
def revEnum (l : List String) : List String := (setUpdate [] l).reverse

/-- Two chunks each reporting the project "Kutsari" with disjoint documents. -/
def chunksKutsari : List (Option (List Proyecto)) :=
  [some [{ nombre := "Kutsari", descripcion := "Proyecto de semiconductores",
           instituciones := [], documentos := some ["a.pdf"] }],
   some [{ nombre := "Kutsari", descripcion := "otra descripcion",
           instituciones := [], documentos := some ["b.pdf"] }]]

-- ==========================================================================
-- Document-name assignment to chunks (extractor lines 533-540)
-- ==========================================================================

/-- The per-chunk document-name assignment of
`ProcesadorDocumentos.procesar_documentos` (extractor lines 533-538): chunk
number i receives documentos_nombres[i : i+len(chunk_i)] if that end index is
within range, else documentos_nombres[i:], — indexed by the chunk POSITION i,
not by the cumulative count of texts in earlier chunks. -/
def chunk_docs_asignados (documentos_nombres : List String)
    (chunks_docs : List (List String)) : List (List String) :=
  chunks_docs.enum.map (fun ic =>
    if ic.1 + ic.2.length ≤ documentos_nombres.length then
      (documentos_nombres.drop ic.1).take ic.2.length
    else documentos_nombres.drop ic.1)

/-- Number of texts contained in the chunks before position i — the index at
which chunk i's texts actually start inside the original text list. -/
def cumLen (chunks : List (List String)) (i : Nat) : Nat :=
  ((chunks.take i).map List.length).sum

-- ==========================================================================
-- Helper lemmas about the chunking fold
-- ==========================================================================

/-- Concatenating the finished chunk list yields the already-emitted texts,
then the pending batch, then the remaining input — for any starting state. -/
theorem flatten_chunkFold (B : Nat) :
    ∀ (textos : List String) (chunks : List (List String)) (cur : List String) (tok : Nat),
      (flushChunks (List.foldl (chunkStep B) (chunks, cur, tok) textos)).flatten
        = chunks.flatten ++ cur ++ textos := by
  intro textos
  induction textos with
  | nil =>
      intro chunks cur tok
      by_cases h : cur = []
      · simp [flushChunks, List.foldl, h]
      · simp [flushChunks, List.foldl, h]
  | cons t ts ih =>
      intro chunks cur tok
      rw [List.foldl_cons]
      by_cases h1 : 5 * estimar_tokens_espanol t > 4 * B
      · rw [show chunkStep B (chunks, cur, tok) t
              = ((if cur = [] then chunks else chunks ++ [cur]) ++ [[t]], [], 0) from by
            simp [chunkStep, h1]]
        rw [ih]
        by_cases h2 : cur = []
        · simp [h2]
        · simp [h2]
      · by_cases h2 : 4 * (tok + estimar_tokens_espanol t) > 3 * B
        · rw [show chunkStep B (chunks, cur, tok) t
                = (chunks ++ [cur], [t], estimar_tokens_espanol t) from by
              simp [chunkStep, h1, h2]]
          rw [ih]; simp
        · rw [show chunkStep B (chunks, cur, tok) t
                = (chunks, cur ++ [t], tok + estimar_tokens_espanol t) from by
              simp [chunkStep, h1, h2]]
          rw [ih]; simp

/-- If no text's estimate lies in the gap (3B/4, 4B/5], no emitted batch is
empty: the invariant is that the already-emitted batches are non-empty and the
pending-batch token sum is zero whenever the pending batch is empty. -/
theorem chunkFold_no_empty (B : Nat) :
    ∀ (textos : List String),
      (∀ t ∈ textos,
        4 * estimar_tokens_espanol t ≤ 3 * B ∨ 5 * estimar_tokens_espanol t > 4 * B) →
      ∀ chunks cur tok, [] ∉ chunks → (cur = [] → tok = 0) →
      [] ∉ flushChunks (List.foldl (chunkStep B) (chunks, cur, tok) textos) := by
  intro textos
  induction textos with
  | nil =>
      intro _ chunks cur tok hch hcur
      by_cases h : cur = []
      · simpa [flushChunks, List.foldl, h] using hch
      · simp only [List.foldl, flushChunks]
        rw [if_neg h]
        intro hmem
        rcases List.mem_append.mp hmem with h1 | h1
        · exact hch h1
        · exact h (List.mem_singleton.mp h1).symm
  | cons t ts ih =>
      intro hgap chunks cur tok hch hcur
      have hgap' : ∀ x ∈ ts,
          4 * estimar_tokens_espanol x ≤ 3 * B ∨ 5 * estimar_tokens_espanol x > 4 * B :=
        fun x hx => hgap x (List.mem_cons_of_mem _ hx)
      have hgt := hgap t (List.mem_cons_self _ _)
      rw [List.foldl_cons]
      by_cases h1 : 5 * estimar_tokens_espanol t > 4 * B
      · rw [show chunkStep B (chunks, cur, tok) t
              = ((if cur = [] then chunks else chunks ++ [cur]) ++ [[t]], [], 0) from by
            simp [chunkStep, h1]]
        refine ih hgap' _ _ _ ?_ (fun _ => rfl)
        intro hmem
        rcases List.mem_append.mp hmem with hm | hm
        · by_cases h2 : cur = []
          · rw [if_pos h2] at hm; exact hch hm
          · rw [if_neg h2] at hm
            rcases List.mem_append.mp hm with h3 | h3
            · exact hch h3
            · exact h2 (List.mem_singleton.mp h3).symm
        · simp at hm
      · by_cases h2 : 4 * (tok + estimar_tokens_espanol t) > 3 * B
        · rw [show chunkStep B (chunks, cur, tok) t
                = (chunks ++ [cur], [t], estimar_tokens_espanol t) from by
              simp [chunkStep, h1, h2]]
          have hcurne : cur ≠ [] := by
            intro hnil
            have htok := hcur hnil
            rcases hgt with hle | hbig
            · omega
            · exact h1 hbig
          refine ih hgap' _ _ _ ?_ (by simp)
          intro hmem
          rcases List.mem_append.mp hmem with hm | hm
          · exact hch hm
          · exact hcurne (List.mem_singleton.mp hm).symm
        · rw [show chunkStep B (chunks, cur, tok) t
                = (chunks, cur ++ [t], tok + estimar_tokens_espanol t) from by
              simp [chunkStep, h1, h2]]
          exact ih hgap' _ _ _ hch (by simp)

/-- Invariant: every already-emitted batch containing an oversized text is the
singleton of that text, and the pending batch holds no oversized text; the
property persists through the remaining fold and the final flush. -/
theorem chunkFold_oversized (B : Nat) :
    ∀ (textos : List String) (chunks : List (List String)) (cur : List String) (tok : Nat),
      (∀ c ∈ chunks, ∀ t ∈ c, 5 * estimar_tokens_espanol t > 4 * B → c = [t]) →
      (∀ t ∈ cur, ¬ 5 * estimar_tokens_espanol t > 4 * B) →
      ∀ c ∈ flushChunks (List.foldl (chunkStep B) (chunks, cur, tok) textos),
        ∀ t ∈ c, 5 * estimar_tokens_espanol t > 4 * B → c = [t] := by
  intro textos
  induction textos with
  | nil =>
      intro chunks cur tok hch hcur
      by_cases h : cur = []
      · simpa [flushChunks, List.foldl, h] using hch
      · simp only [flushChunks, List.foldl]
        rw [if_neg h]
        intro c hc t ht hov
        rcases List.mem_append.mp hc with h1 | h1
        · exact hch c h1 t ht hov
        · exact absurd hov (hcur t ((List.mem_singleton.mp h1) ▸ ht))
  | cons x ts ih =>
      intro chunks cur tok hch hcur
      rw [List.foldl_cons]
      by_cases h1 : 5 * estimar_tokens_espanol x > 4 * B
      · rw [show chunkStep B (chunks, cur, tok) x
              = ((if cur = [] then chunks else chunks ++ [cur]) ++ [[x]], [], 0) from by
            simp [chunkStep, h1]]
        refine ih _ _ _ ?_ (by simp)
        intro c hc t ht hov
        rcases List.mem_append.mp hc with hc1 | hc1
        · by_cases h2 : cur = []
          · rw [if_pos h2] at hc1; exact hch c hc1 t ht hov
          · rw [if_neg h2] at hc1
            rcases List.mem_append.mp hc1 with h3 | h3
            · exact hch c h3 t ht hov
            · exact absurd hov (hcur t ((List.mem_singleton.mp h3) ▸ ht))
        · have e1 : c = [x] := List.mem_singleton.mp hc1
          rw [e1] at ht ⊢
          rw [List.mem_singleton.mp ht]
      · by_cases h2 : 4 * (tok + estimar_tokens_espanol x) > 3 * B
        · rw [show chunkStep B (chunks, cur, tok) x
                = (chunks ++ [cur], [x], estimar_tokens_espanol x) from by
              simp [chunkStep, h1, h2]]
          refine ih _ _ _ ?_ ?_
          · intro c hc t ht hov
            rcases List.mem_append.mp hc with hc1 | hc1
            · exact hch c hc1 t ht hov
            · exact absurd hov (hcur t ((List.mem_singleton.mp hc1) ▸ ht))
          · intro t ht
            rw [List.mem_singleton.mp ht]
            exact h1
        · rw [show chunkStep B (chunks, cur, tok) x
                = (chunks, cur ++ [x], tok + estimar_tokens_espanol x) from by
              simp [chunkStep, h1, h2]]
          refine ih _ _ _ hch ?_
          intro t ht
          rcases List.mem_append.mp ht with ht1 | ht1
          · exact hcur t ht1
          · rw [List.mem_singleton.mp ht1]; exact h1

-- ==========================================================================
-- C1: concatenation of the chunks reconstructs the input
-- ==========================================================================

/-- C1: for every list of texts and every token budget B > 0, concatenating the
chunks returned by `crear_chunks_inteligentes`, in order, yields the input list
of texts exactly: no loss, no duplication, no reorder. -/
theorem crear_chunks_join (textos : List String) (B : Nat) (hB : 0 < B) :
    (crear_chunks_inteligentes textos B).flatten = textos := by
  simpa [crear_chunks_inteligentes] using flatten_chunkFold B textos [] [] 0

/-- Witness for C1 at a concrete input. -/
theorem crear_chunks_join_witness :
    (crear_chunks_inteligentes ["a", "b"] 9).flatten = ["a", "b"] :=
  crear_chunks_join ["a", "b"] 9 (by decide)

/-- C3 counterexample: on the three-word text "a b c" the code computes
int(3 · 1.3) = 3 (truncation) while the spec formula round(3 · 1.3) gives 4. -/
theorem estimar_tokens_not_round :
    estimar_tokens_espanol "a b c" ≠ estimar_tokens_round "a b c" := by decide

/-- C3 amended: for every text, the token estimator returns the word count
times 1.3 truncated toward zero (the floor), i.e. 13 · word_count / 10 in
integer division — not rounded to the nearest integer. -/
theorem estimar_tokens_eq_floor (texto : String) :
    estimar_tokens_espanol texto = 13 * palabras texto / 10 := by
  unfold estimar_tokens_espanol
  omega

-- ==========================================================================
-- C4: batches can be empty (claim corrected)
-- ==========================================================================

/-- C4 counterexample: with budget 9 > 0 and the single six-word text
"a a a a a a" (estimated 7 tokens, which lies between 0.75·9 = 6.75 and
0.8·9 = 7.2), the overflow branch flushes the still-empty running batch, so
the output contains the empty batch. -/
theorem crear_chunks_empty_batch :
    0 < 9 ∧ [] ∈ crear_chunks_inteligentes ["a a a a a a"] 9 := by decide

/-- C4 amended: every batch emitted by `crear_chunks_inteligentes` is non-empty
provided no input text's estimated token count lies in the gap
(0.75·B, 0.8·B]; a text in that gap arriving while the running batch is empty
makes the overflow branch flush the empty running batch, which is the only
source of empty batches. -/
theorem crear_chunks_no_empty (textos : List String) (B : Nat) (hB : 0 < B)
    (hgap : ∀ t ∈ textos,
      4 * estimar_tokens_espanol t ≤ 3 * B ∨ 5 * estimar_tokens_espanol t > 4 * B) :
    [] ∉ crear_chunks_inteligentes textos B :=
  chunkFold_no_empty B textos hgap [] [] 0 (by simp) (fun _ => rfl)

/-- Witness for the amended C4 at a concrete input. -/
theorem crear_chunks_no_empty_witness :
    [] ∉ crear_chunks_inteligentes ["a", "b"] 9 :=
  crear_chunks_no_empty ["a", "b"] 9 (by decide) (by decide)

-- ==========================================================================
-- C5: oversized texts always sit alone in a singleton batch
-- ==========================================================================

/-- C5: for every input list and budget B > 0, any batch of the output that
contains a text whose estimated token count exceeds 0.8·B is exactly the
singleton of that text — an oversized text is never grouped with any other. -/
theorem crear_chunks_oversized_alone (textos : List String) (B : Nat) (hB : 0 < B)
    (c : List String) (hc : c ∈ crear_chunks_inteligentes textos B)
    (t : String) (ht : t ∈ c) (hov : 5 * estimar_tokens_espanol t > 4 * B) :
    c = [t] :=
  chunkFold_oversized B textos [] [] 0 (by simp) (by simp) c hc t ht hov

/-- Witness for C5: at budget 10 the seven-word text (estimated 9 > 0.8·10
tokens) occupies a singleton batch of the output. -/
theorem crear_chunks_oversized_alone_witness :
    (["a a a a a a a"] : List String) = ["a a a a a a a"] :=
  crear_chunks_oversized_alone ["a a a a a a a", "b"] 10 (by decide)
    ["a a a a a a a"] (by decide) "a a a a a a a" (by decide) (by decide)

-- ==========================================================================
-- C2: classification of the verification question
-- ==========================================================================

set_option maxRecDepth 10000 in
/-- C2 (evaluation at the failing input): on the question
"Es verdad que Kutsari trata sobre petróleo?" the classifier does return the
intent `verificar` (the verification rule precedes the generic trailing-?
rule), but the extracted parameter is the lower-cased remainder after
"es verdad", namely "que kutsari trata sobre petróleo?" — keeping the word
"que" and the trailing question mark — and not the value
"Kutsari trata sobre petróleo" promised by the claim and by the function's
own docstring (analisis lines 79-80). -/
theorem analizar_verificar_kutsari :
    (analizar "Es verdad que Kutsari trata sobre petróleo?").tipo = "verificar" ∧
    (analizar "Es verdad que Kutsari trata sobre petróleo?").accion = "verificar_afirmacion" ∧
    (analizar "Es verdad que Kutsari trata sobre petróleo?").parametros
      = [("afirmacion", "que kutsari trata sobre petróleo?")] ∧
    (analizar "Es verdad que Kutsari trata sobre petróleo?").parametros
      ≠ [("afirmacion", "Kutsari trata sobre petróleo")] := by
  refine ⟨by decide, by decide, by decide, by decide⟩

/-- C6 (evaluation at the failing input): the pre-digest cache-key string
embeds Python's builtin hash(str(textos)), which CPython salts per process;
two processes whose salted hashes of str(['x']) differ (here 0 versus 1)
derive different digest inputs — hence different md5 cache keys — for the
same chunk index 0, intent "proyectos" and texts ['x'], refuting
run-independence of the key. -/
theorem cache_hash_input_process_dependent :
    cache_hash_input (fun _ => 0) 0 "proyectos" ["x"]
      ≠ cache_hash_input (fun _ => 1) 0 "proyectos" ["x"] := by decide

/-- C8: the response parser is total and all failure paths resolve to the same
well-formed fallback: for every json.loads oracle and every reply string —
empty, without braces, with unbalanced braces, or with content the oracle
rejects — the result is either a value parsed by the oracle from the
extracted brace-balanced span, or exactly the fallback dictionary carrying
the first 500 characters of the raw reply and the marker "no_json_valido". -/
theorem parsear_respuesta_total (α : Type) (loads : String → Option α) (respuesta : String) :
    (∃ s v, loads s = some v ∧ parsear_respuesta_json loads respuesta = .parsed v) ∨
    parsear_respuesta_json loads respuesta
      = .fallback ⟨respuesta.take 500, "no_json_valido"⟩ := by
  unfold parsear_respuesta_json
  split
  · split
    · split
      · rename_i v hl
        exact Or.inl ⟨_, v, hl, rfl⟩
      · exact Or.inr rfl
    · exact Or.inr rfl
  · exact Or.inr rfl

/-- A readable cache entry short-circuits the computation: the stored value is
returned, the cache is unchanged, and the LLM is not invoked. -/
theorem procesar_chunk_hit {α : Type} (md5h : String → String) (pyHash : String → Int)
    (llm : String → String → String) (loads : String → Option α)
    (consulta_tipo : String) (writeOk : Bool) (cache : ChunkCache α)
    (chunk_id : Nat) (documentos textos : List String) (v : Resultado α)
    (hv : cache (chunkKey md5h pyHash chunk_id consulta_tipo textos) = .stored v) :
    procesar_chunk md5h pyHash llm loads consulta_tipo writeOk cache chunk_id documentos textos
      = some (v, cache, 0) := by
  unfold procesar_chunk
  rw [hv]

/-- On a cache miss with a known query type, the result is computed once; with
persistence enabled the new cache stores it under the key. -/
theorem procesar_chunk_miss {α : Type} (md5h : String → String) (pyHash : String → Int)
    (llm : String → String → String) (loads : String → Option α)
    (consulta_tipo : String) (writeOk : Bool) (cache : ChunkCache α)
    (chunk_id : Nat) (documentos textos : List String)
    (hns : ∀ v, cache (chunkKey md5h pyHash chunk_id consulta_tipo textos) ≠ .stored v)
    (sys user : String) (hpr : PROMPTS.lookup consulta_tipo = some (sys, user)) :
    procesar_chunk md5h pyHash llm loads consulta_tipo writeOk cache chunk_id documentos textos
      = some (computedResultado llm loads sys user chunk_id documentos textos,
          (if writeOk then
            (fun k => if k = chunkKey md5h pyHash chunk_id consulta_tipo textos
                      then .stored (computedResultado llm loads sys user chunk_id documentos textos)
                      else cache k)
           else cache),
          1) := by
  unfold procesar_chunk
  rcases hck : cache (chunkKey md5h pyHash chunk_id consulta_tipo textos) with _ | _ | v
  · rw [hpr]
  · rw [hpr]
  · exact absurd hck (hns v)

/-- On a cache miss with an unknown query type, the KeyError path is taken. -/
theorem procesar_chunk_nokey {α : Type} (md5h : String → String) (pyHash : String → Int)
    (llm : String → String → String) (loads : String → Option α)
    (consulta_tipo : String) (writeOk : Bool) (cache : ChunkCache α)
    (chunk_id : Nat) (documentos textos : List String)
    (hns : ∀ v, cache (chunkKey md5h pyHash chunk_id consulta_tipo textos) ≠ .stored v)
    (hpr : PROMPTS.lookup consulta_tipo = none) :
    procesar_chunk md5h pyHash llm loads consulta_tipo writeOk cache chunk_id documentos textos
      = none := by
  unfold procesar_chunk
  rcases hck : cache (chunkKey md5h pyHash chunk_id consulta_tipo textos) with _ | _ | v
  · rw [hpr]
  · rw [hpr]
  · exact absurd hck (hns v)

/-- C7 amended: (a) if a readable cache entry already exists for the chunk's
key, `procesar_chunk` returns the stored value without invoking the LLM;
(b) calling it twice with the same arguments when persistence succeeds yields
the same value and invokes the compute path at most once in total (the second
call performs zero LLM calls and leaves the cache unchanged); (c) a failure
to write the cache entry does not fail the call — the freshly computed result
is still returned (the returned value is independent of whether the write
succeeds) — though the work is then repeated by a later call. -/
theorem procesar_chunk_cache_contract {α : Type} (md5h : String → String)
    (pyHash : String → Int) (llm : String → String → String) (loads : String → Option α)
    (consulta_tipo : String) (cache : ChunkCache α) (chunk_id : Nat)
    (documentos textos : List String) :
    (∀ v writeOk, cache (chunkKey md5h pyHash chunk_id consulta_tipo textos) = .stored v →
        procesar_chunk md5h pyHash llm loads consulta_tipo writeOk cache chunk_id documentos textos
          = some (v, cache, 0)) ∧
    (∀ r st n,
        procesar_chunk md5h pyHash llm loads consulta_tipo true cache chunk_id documentos textos
          = some (r, st, n) →
        n ≤ 1 ∧
        procesar_chunk md5h pyHash llm loads consulta_tipo true st chunk_id documentos textos
          = some (r, st, 0)) ∧
    ((procesar_chunk md5h pyHash llm loads consulta_tipo false cache chunk_id
        documentos textos).map (fun x => x.1)
      = (procesar_chunk md5h pyHash llm loads consulta_tipo true cache chunk_id
        documentos textos).map (fun x => x.1)) := by
  refine ⟨?_, ?_, ?_⟩
  · intro v writeOk hv
    exact procesar_chunk_hit md5h pyHash llm loads consulta_tipo writeOk cache
      chunk_id documentos textos v hv
  · intro r st n h
    by_cases hstored : ∃ v,
        cache (chunkKey md5h pyHash chunk_id consulta_tipo textos) = .stored v
    · obtain ⟨v, hv⟩ := hstored
      rw [procesar_chunk_hit md5h pyHash llm loads consulta_tipo true cache
        chunk_id documentos textos v hv] at h
      simp only [Option.some.injEq, Prod.mk.injEq] at h
      obtain ⟨h1, h2, h3⟩ := h
      subst h1; subst h2; subst h3
      exact ⟨Nat.zero_le 1, procesar_chunk_hit md5h pyHash llm loads consulta_tipo true cache
        chunk_id documentos textos v hv⟩
    · push_neg at hstored
      rcases hlk : PROMPTS.lookup consulta_tipo with _ | ⟨sys, user⟩
      · rw [procesar_chunk_nokey md5h pyHash llm loads consulta_tipo true cache
          chunk_id documentos textos hstored hlk] at h
        exact absurd h (by simp)
      · rw [procesar_chunk_miss md5h pyHash llm loads consulta_tipo true cache
          chunk_id documentos textos hstored sys user hlk] at h
        simp only [Option.some.injEq, Prod.mk.injEq, if_true] at h
        obtain ⟨h1, h2, h3⟩ := h
        subst h1; subst h3
        refine ⟨le_refl 1, ?_⟩
        have hstk : st (chunkKey md5h pyHash chunk_id consulta_tipo textos)
            = .stored (computedResultado llm loads sys user chunk_id documentos textos) := by
          rw [← h2]; simp
        exact procesar_chunk_hit md5h pyHash llm loads consulta_tipo true st
          chunk_id documentos textos _ hstk
  · by_cases hstored : ∃ v,
        cache (chunkKey md5h pyHash chunk_id consulta_tipo textos) = .stored v
    · obtain ⟨v, hv⟩ := hstored
      rw [procesar_chunk_hit md5h pyHash llm loads consulta_tipo false cache
          chunk_id documentos textos v hv,
        procesar_chunk_hit md5h pyHash llm loads consulta_tipo true cache
          chunk_id documentos textos v hv]
    · push_neg at hstored
      rcases hlk : PROMPTS.lookup consulta_tipo with _ | ⟨sys, user⟩
      · rw [procesar_chunk_nokey md5h pyHash llm loads consulta_tipo false cache
          chunk_id documentos textos hstored hlk,
          procesar_chunk_nokey md5h pyHash llm loads consulta_tipo true cache
          chunk_id documentos textos hstored hlk]
      · rw [procesar_chunk_miss md5h pyHash llm loads consulta_tipo false cache
          chunk_id documentos textos hstored sys user hlk,
          procesar_chunk_miss md5h pyHash llm loads consulta_tipo true cache
          chunk_id documentos textos hstored sys user hlk]
        rfl

/-- C7 counterexample: with the cache write failing (persistence disabled),
each of two successive `procesar_chunk` calls with the same key invokes the
compute path once — two LLM invocations in total — so "invokes the compute
path at most once" fails when the cache entry cannot be written. -/
theorem procesar_chunk_write_failure_recomputes :
    ((procesar_chunk md5Id hashZero llmEmpty loadsNone "proyectos" false cacheAbsent
        0 [] []).map (fun x => x.2.2) = some 1) ∧
    (((procesar_chunk md5Id hashZero llmEmpty loadsNone "proyectos" false cacheAbsent
        0 [] []).bind
        (fun x => procesar_chunk md5Id hashZero llmEmpty loadsNone "proyectos" false x.2.1
          0 [] [])).map (fun x => x.2.2) = some 1) :=
  ⟨rfl, rfl⟩

/-- Witness for C7 at concrete inputs: the stored entry is returned unchanged
with zero LLM invocations. -/
theorem procesar_chunk_cache_contract_witness :
    procesar_chunk md5Id hashZero llmEmpty loadsNone "proyectos" true cacheStored0 0 [] []
      = some (v0, cacheStored0, 0) :=
  (procesar_chunk_cache_contract md5Id hashZero llmEmpty loadsNone "proyectos"
    cacheStored0 0 [] []).1 v0 true rfl

/-- `setUpdate` preserves duplicate-freeness. -/
theorem setUpdate_nodup : ∀ (new docs : List String), docs.Nodup → (setUpdate docs new).Nodup := by
  intro new
  induction new with
  | nil => intro docs h; simpa [setUpdate] using h
  | cons x xs ih =>
      intro docs h
      rw [show setUpdate docs (x :: xs)
            = setUpdate (if x ∈ docs then docs else docs ++ [x]) xs from rfl]
      apply ih
      by_cases hx : x ∈ docs
      · simpa [hx] using h
      · rw [if_neg hx]
        simp [List.nodup_append, h, hx]

/-- Membership in `setUpdate` is membership in either argument. -/
theorem mem_setUpdate : ∀ (new docs : List String) (y : String),
    y ∈ setUpdate docs new ↔ y ∈ docs ∨ y ∈ new := by
  intro new
  induction new with
  | nil => intro docs y; simp [setUpdate]
  | cons x xs ih =>
      intro docs y
      rw [show setUpdate docs (x :: xs)
            = setUpdate (if x ∈ docs then docs else docs ++ [x]) xs from rfl, ih]
      by_cases hx : x ∈ docs
      · rw [if_pos hx]
        simp only [List.mem_cons]
        constructor
        · rintro (h | h)
          · exact Or.inl h
          · exact Or.inr (Or.inr h)
        · rintro (h | h | h)
          · exact Or.inl h
          · exact Or.inl (h ▸ hx)
          · exact Or.inr h
      · rw [if_neg hx]
        simp only [List.mem_append, List.mem_singleton, List.mem_cons]
        tauto

/-- The keys after `insertProy`: unchanged when the name is already present,
otherwise the name is appended. -/
theorem insertProy_keys (p : Proyecto) : ∀ todos : List (String × PEntry),
    (insertProy p todos).map Prod.fst =
      if p.nombre ∈ todos.map Prod.fst then todos.map Prod.fst
      else todos.map Prod.fst ++ [p.nombre] := by
  intro todos
  induction todos with
  | nil => simp [insertProy]
  | cons hd rest ih =>
      obtain ⟨n, e⟩ := hd
      by_cases h : n = p.nombre
      · simp [insertProy, h]
      · have hn : p.nombre ≠ n := fun hh => h hh.symm
        simp only [insertProy, if_neg h, List.map_cons, ih]
        by_cases h2 : p.nombre ∈ rest.map Prod.fst
        · simp [List.mem_cons, hn, h2]
        · simp [List.mem_cons, hn, h2]

/-- Where an element of `insertProy p todos` comes from (keys assumed
duplicate-free): untouched old entry with a different key, the updated entry
for `p.nombre`, or the freshly appended entry. -/
theorem insertProy_mem (p : Proyecto) : ∀ (todos : List (String × PEntry)),
    (todos.map Prod.fst).Nodup → ∀ ne ∈ insertProy p todos,
      (ne ∈ todos ∧ ne.1 ≠ p.nombre) ∨
      (∃ e, (p.nombre, e) ∈ todos ∧
        ne = (p.nombre, ⟨e.base, setUpdate e.docs (p.documentos.getD [])⟩)) ∨
      (p.nombre ∉ todos.map Prod.fst ∧
        ne = (p.nombre, ⟨p, setUpdate [] (p.documentos.getD [])⟩)) := by
  intro todos
  induction todos with
  | nil =>
      intro _ ne h
      simp only [insertProy, List.mem_singleton] at h
      exact Or.inr (Or.inr ⟨by simp, h⟩)
  | cons hd rest ih =>
      obtain ⟨n, e⟩ := hd
      intro hk ne h
      have hk1 : n ∉ rest.map Prod.fst := by
        have := hk
        simp only [List.map_cons, List.nodup_cons] at this
        exact this.1
      have hk2 : (rest.map Prod.fst).Nodup := by
        have := hk
        simp only [List.map_cons, List.nodup_cons] at this
        exact this.2
      by_cases hn : n = p.nombre
      · rw [insertProy, if_pos hn] at h
        rcases List.mem_cons.mp h with h1 | h1
        · refine Or.inr (Or.inl ⟨e, ?_, ?_⟩)
          · rw [← hn]; exact List.mem_cons_self _ _
          · rw [h1, hn]
        · refine Or.inl ⟨List.mem_cons_of_mem _ h1, ?_⟩
          intro hne
          apply hk1
          rw [hn, ← hne]
          exact List.mem_map_of_mem _ h1
      · rw [insertProy, if_neg hn] at h
        rcases List.mem_cons.mp h with h1 | h1
        · refine Or.inl ⟨by rw [h1]; exact List.mem_cons_self _ _, ?_⟩
          intro hh
          rw [h1] at hh
          exact hn (by simpa using hh)
        · rcases ih hk2 ne h1 with ⟨ha, hb⟩ | ⟨e2, ha, hb⟩ | ⟨ha, hb⟩
          · exact Or.inl ⟨List.mem_cons_of_mem _ ha, hb⟩
          · exact Or.inr (Or.inl ⟨e2, List.mem_cons_of_mem _ ha, hb⟩)
          · refine Or.inr (Or.inr ⟨?_, hb⟩)
            simp only [List.map_cons, List.mem_cons]
            rintro (hc | hc)
            · exact hn hc.symm
            · exact ha hc

/-- The invariant is preserved by processing one more reported project. -/
theorem consInv_step (pref : List Proyecto) (todos : List (String × PEntry)) (p : Proyecto)
    (h : ConsInv pref todos) : ConsInv (pref ++ [p]) (proyStep todos p) := by
  obtain ⟨hk, hent, hcomp⟩ := h
  by_cases hp : p.nombre = ""
  · rw [proyStep, if_pos hp]
    refine ⟨hk, ?_, ?_⟩
    · intro ne hne
      obtain ⟨h1, h2, h3, h4, h5⟩ := hent ne hne
      refine ⟨h1, h2, ?_, h4, ?_⟩
      · rw [List.find?_append, h3]; rfl
      · intro x
        rw [h5 x]
        constructor
        · rintro ⟨q, hq, hqn, hqx⟩
          exact ⟨q, List.mem_append_left _ hq, hqn, hqx⟩
        · rintro ⟨q, hq, hqn, hqx⟩
          rcases List.mem_append.mp hq with hq1 | hq1
          · exact ⟨q, hq1, hqn, hqx⟩
          · exfalso
            rw [List.mem_singleton.mp hq1] at hqn
            exact h2 (by rw [← hqn]; exact hp)
    · intro q hq hqn
      rcases List.mem_append.mp hq with h1 | h1
      · exact hcomp q h1 hqn
      · exfalso
        rw [List.mem_singleton.mp h1] at hqn
        exact hqn hp
  · rw [proyStep, if_neg hp]
    have hfind_fresh : p.nombre ∉ todos.map Prod.fst →
        pref.find? (fun q => q.nombre == p.nombre) = none := by
      intro hfresh
      rcases hfo : pref.find? (fun q => q.nombre == p.nombre) with _ | q
      · exact hfo
      · exfalso
        have hqmem := List.mem_of_find?_eq_some hfo
        have hqp : q.nombre = p.nombre := by
          have := List.find?_some hfo
          simpa using this
        obtain ⟨ne, hne, hkey⟩ := hcomp q hqmem (by rw [hqp]; exact hp)
        apply hfresh
        have hm : ne.1 ∈ todos.map Prod.fst := List.mem_map_of_mem _ hne
        rwa [hkey, hqp] at hm
    refine ⟨?_, ?_, ?_⟩
    · rw [insertProy_keys]
      by_cases hmemk : p.nombre ∈ todos.map Prod.fst
      · simpa [hmemk] using hk
      · rw [if_neg hmemk]
        simp [List.nodup_append, hk, hmemk]
    · intro ne hne
      rcases insertProy_mem p todos hk ne hne with ⟨hold, hneq⟩ | ⟨e, hmem, heq⟩ | ⟨hfresh, heq⟩
      · obtain ⟨h1, h2, h3, h4, h5⟩ := hent ne hold
        refine ⟨h1, h2, ?_, h4, ?_⟩
        · rw [List.find?_append, h3]; rfl
        · intro x
          rw [h5 x]
          constructor
          · rintro ⟨q, hq, hqn, hqx⟩
            exact ⟨q, List.mem_append_left _ hq, hqn, hqx⟩
          · rintro ⟨q, hq, hqn, hqx⟩
            rcases List.mem_append.mp hq with hq1 | hq1
            · exact ⟨q, hq1, hqn, hqx⟩
            · exfalso
              rw [List.mem_singleton.mp hq1] at hqn
              exact hneq hqn.symm
      · obtain ⟨h1, h2, h3, h4, h5⟩ := hent (p.nombre, e) hmem
        subst heq
        refine ⟨h1, hp, ?_, setUpdate_nodup _ _ h4, ?_⟩
        · rw [List.find?_append, h3]; rfl
        · intro x
          rw [mem_setUpdate]
          constructor
          · rintro (hx | hx)
            · obtain ⟨q, hq, hqn, hqx⟩ := (h5 x).mp hx
              exact ⟨q, List.mem_append_left _ hq, hqn, hqx⟩
            · exact ⟨p, List.mem_append_right _ (List.mem_singleton_self p), rfl, hx⟩
          · rintro ⟨q, hq, hqn, hqx⟩
            rcases List.mem_append.mp hq with hq1 | hq1
            · exact Or.inl ((h5 x).mpr ⟨q, hq1, hqn, hqx⟩)
            · right
              rw [List.mem_singleton.mp hq1] at hqx
              exact hqx
      · subst heq
        have hfn := hfind_fresh hfresh
        refine ⟨rfl, hp, ?_, setUpdate_nodup _ [] List.nodup_nil, ?_⟩
        · rw [List.find?_append, hfn]
          simp [List.find?]
        · intro x
          rw [mem_setUpdate]
          simp only [List.not_mem_nil, false_or]
          constructor
          · intro hx
            exact ⟨p, List.mem_append_right _ (List.mem_singleton_self p), rfl, hx⟩
          · rintro ⟨q, hq, hqn, hqx⟩
            rcases List.mem_append.mp hq with hq1 | hq1
            · exfalso
              have := List.find?_eq_none.mp hfn q hq1
              simp [hqn] at this
            · rw [List.mem_singleton.mp hq1] at hqx
              exact hqx
    · intro q hq hqn
      rcases List.mem_append.mp hq with h1 | h1
      · obtain ⟨ne, hne, hkey⟩ := hcomp q h1 hqn
        have hmem2 : ne.1 ∈ (insertProy p todos).map Prod.fst := by
          rw [insertProy_keys]
          have hin : ne.1 ∈ todos.map Prod.fst := List.mem_map_of_mem _ hne
          by_cases hmemk : p.nombre ∈ todos.map Prod.fst
          · simpa [hmemk] using hin
          · rw [if_neg hmemk]
            exact List.mem_append_left _ hin
        obtain ⟨ne2, hne2, hkey2⟩ := List.mem_map.mp hmem2
        exact ⟨ne2, hne2, by rw [hkey2, hkey]⟩
      · rw [List.mem_singleton.mp h1]
        have hmem2 : p.nombre ∈ (insertProy p todos).map Prod.fst := by
          rw [insertProy_keys]
          by_cases hmemk : p.nombre ∈ todos.map Prod.fst
          · simp [hmemk]
          · rw [if_neg hmemk]
            exact List.mem_append_right _ (List.mem_singleton_self _)
        obtain ⟨ne2, hne2, hkey2⟩ := List.mem_map.mp hmem2
        exact ⟨ne2, hne2, hkey2⟩

/-- The invariant is preserved by folding a whole list of reported projects. -/
theorem consInv_fold : ∀ (ps pref : List Proyecto) (todos : List (String × PEntry)),
    ConsInv pref todos → ConsInv (pref ++ ps) (ps.foldl proyStep todos) := by
  intro ps
  induction ps with
  | nil => intro pref todos h; simpa using h
  | cons p ps ih =>
      intro pref todos h
      rw [List.foldl_cons]
      have h2 := ih (pref ++ [p]) (proyStep todos p) (consInv_step pref todos p h)
      simpa [List.append_assoc] using h2

/-- The chunk double loop is the fold of `proyStep` over the flattened list of
reported projects. -/
theorem mergeChunks_eq_flat (chunks : List (Option (List Proyecto))) :
    mergeChunks chunks = ((chunks.filterMap id).flatten).foldl proyStep [] := by
  suffices h : ∀ (cs : List (Option (List Proyecto))) (init : List (String × PEntry)),
      cs.foldl (fun todos chunk => match chunk with
        | some ps => ps.foldl proyStep todos
        | none => todos) init
        = ((cs.filterMap id).flatten).foldl proyStep init by
    exact h chunks []
  intro cs
  induction cs with
  | nil => intro init; simp
  | cons c rest ih =>
      intro init
      rcases c with _ | ps
      · simpa using ih init
      · rw [show List.filterMap id (some ps :: rest) = ps :: List.filterMap id rest from rfl]
        simp only [List.foldl_cons, List.flatten_cons, List.foldl_append]
        exact ih _

/-- The invariant holds of the fully merged accumulator, with respect to the
full flattened list of reported projects. -/
theorem consInv_mergeChunks (chunks : List (Option (List Proyecto))) :
    ConsInv ((chunks.filterMap id).flatten) (mergeChunks chunks) := by
  rw [mergeChunks_eq_flat]
  have h0 : ConsInv [] [] := by
    refine ⟨by simp, ?_, ?_⟩
    · intro ne hne; simp at hne
    · intro q hq; simp at hq
  simpa using consInv_fold ((chunks.filterMap id).flatten) [] [] h0

/-- Membership characterisation of `docsDe`. -/
theorem mem_docsDe (x nombre : String) (chunks : List (Option (List Proyecto))) :
    x ∈ docsDe nombre chunks ↔
      ∃ q ∈ (chunks.filterMap id).flatten, q.nombre = nombre ∧ x ∈ q.documentos.getD [] := by
  simp only [docsDe, List.mem_flatten, List.mem_map, List.mem_filter, beq_iff_eq]
  constructor
  · rintro ⟨l, ⟨q, ⟨hq, hqn⟩, rfl⟩, hx⟩
    exact ⟨q, hq, hqn, hx⟩
  · rintro ⟨q, hq, hqn, hx⟩
    exact ⟨q.documentos.getD [], ⟨q, ⟨hq, hqn⟩, rfl⟩, hx⟩

/-- C9 amended: for the proyectos intent, `consolidar_resultados` produces one
entry per (non-empty) project name; descriptive fields come from the first
occurrence; the final "documentos" field is a DUPLICATE-FREE LIST enumerating
exactly the union of the documents reported for that name across all chunks
(in CPython's unspecified set-iteration order — not sorted); and "menciones"
equals the length of that list, i.e. the size of the union. `setToList` is
the set-enumeration oracle with its contract as the two hypotheses. -/
theorem consolidar_proyectos_contract
    (setToList : List String → List String)
    (hnod : ∀ l, (setToList l).Nodup)
    (hmem : ∀ l x, x ∈ setToList l ↔ x ∈ l)
    (chunks : List (Option (List Proyecto))) (ps : List ProyectoOut) (total : Nat)
    (hout : consolidar_resultados setToList "proyectos" chunks = .proyectos ps total) :
    (ps.map (fun e => e.nombre)).Nodup ∧
    (∀ e ∈ ps,
      e.nombre ≠ "" ∧
      (∃ p, firstOcc e.nombre chunks = some p ∧
        e.descripcion = p.descripcion ∧ e.instituciones = p.instituciones) ∧
      e.documentos.Nodup ∧
      (∀ x, x ∈ e.documentos ↔ x ∈ docsDe e.nombre chunks) ∧
      e.menciones = e.documentos.length) ∧
    (∀ p ∈ (chunks.filterMap id).flatten, p.nombre ≠ "" →
      ∃ e ∈ ps, e.nombre = p.nombre) := by
  obtain ⟨hk, hent, hcomp⟩ := consInv_mergeChunks chunks
  have hps : ps = (mergeChunks chunks).map (fun ne =>
      { nombre := ne.2.base.nombre, descripcion := ne.2.base.descripcion,
        instituciones := ne.2.base.instituciones,
        documentos := setToList ne.2.docs,
        menciones := (setToList ne.2.docs).length }) := by
    by_cases hc : chunks = []
    · rw [consolidar_resultados, if_pos hc] at hout
      exact (ConsolidadoOut.noConfusion hout)
    · rw [consolidar_resultados, if_neg hc, if_pos] at hout
      · injection hout with h1 h2
        exact h1.symm
      · rfl
  subst hps
  refine ⟨?_, ?_, ?_⟩
  · rw [List.map_map]
    have hcg : (mergeChunks chunks).map
        ((fun e : ProyectoOut => e.nombre) ∘ (fun ne : String × PEntry =>
          ({ nombre := ne.2.base.nombre, descripcion := ne.2.base.descripcion,
             instituciones := ne.2.base.instituciones,
             documentos := setToList ne.2.docs,
             menciones := (setToList ne.2.docs).length } : ProyectoOut)))
        = (mergeChunks chunks).map Prod.fst := by
      apply List.map_congr_left
      intro ne hne
      exact ((hent ne hne).1).symm
    rw [hcg]
    exact hk
  · intro e he
    obtain ⟨ne, hne, rfl⟩ := List.mem_map.mp he
    obtain ⟨h1, h2, h3, h4, h5⟩ := hent ne hne
    refine ⟨?_, ?_, hnod _, ?_, rfl⟩
    · show ne.2.base.nombre ≠ ""
      rw [← h1]; exact h2
    · refine ⟨ne.2.base, ?_, rfl, rfl⟩
      show (firstOcc ne.2.base.nombre chunks) = some ne.2.base
      rw [firstOcc, ← h1]
      exact h3
    · intro x
      show x ∈ setToList ne.2.docs ↔ x ∈ docsDe ne.2.base.nombre chunks
      rw [hmem, h5, mem_docsDe, ← h1]
  · intro p hp hpn
    obtain ⟨ne, hne, hkey⟩ := hcomp p hp hpn
    refine ⟨_, List.mem_map_of_mem _ hne, ?_⟩
    show ne.2.base.nombre = p.nombre
    rw [← (hent ne hne).1, hkey]

/-- C9 counterexample: under the reversed (but perfectly valid) set-iteration
order, the consolidated "documentos" list for "Kutsari" is ["b.pdf", "a.pdf"]
— the union of the two disjoint sets, with menciones 2 and the first
occurrence's description, but NOT the sorted list ["a.pdf", "b.pdf"] the
claim requires: the code converts the set with list(...) and never sorts. -/
theorem consolidar_documentos_not_sorted :
    consolidar_resultados revEnum "proyectos" chunksKutsari
      = .proyectos [{ nombre := "Kutsari", descripcion := "Proyecto de semiconductores",
                      instituciones := [], documentos := ["b.pdf", "a.pdf"],
                      menciones := 2 }] 1 ∧
    (["b.pdf", "a.pdf"] : List String) ≠ ["a.pdf", "b.pdf"] := by
  constructor
  · rfl
  · decide

/-- Witness for the amended C9 at a concrete input, with the insertion-order
enumeration: the consolidated entry names are duplicate-free. -/
theorem consolidar_proyectos_contract_witness :
    (([{ nombre := "Kutsari", descripcion := "Proyecto de semiconductores",
          instituciones := [], documentos := ["a.pdf", "b.pdf"], menciones := 2 }]
      : List ProyectoOut).map (fun e => e.nombre)).Nodup :=
  (consolidar_proyectos_contract idEnum
    (fun l => setUpdate_nodup l [] List.nodup_nil)
    (fun l x => by rw [idEnum, mem_setUpdate]; simp)
    chunksKutsari _ 1 rfl).1

/-- A list of naturals, each at least 1, whose sum equals its length, is all
ones. -/
theorem sum_eq_length_all_one : ∀ (l : List Nat),
    (∀ x ∈ l, 1 ≤ x) → l.sum = l.length → ∀ x ∈ l, x = 1 := by
  intro l
  induction l with
  | nil => intro _ _ x hx; simp at hx
  | cons a as ih =>
      intro h1 hsum x hx
      have ha : 1 ≤ a := h1 a (List.mem_cons_self _ _)
      have has : ∀ y ∈ as, 1 ≤ y := fun y hy => h1 y (List.mem_cons_of_mem _ hy)
      have hlen : as.length ≤ as.sum := List.length_le_sum_of_one_le as has
      simp only [List.sum_cons, List.length_cons] at hsum
      have ha1 : a = 1 := by omega
      have hsum2 : as.sum = as.length := by omega
      rcases List.mem_cons.mp hx with h | h
      · rw [h, ha1]
      · exact ih has hsum2 x h

/-- C10: in `procesar_documentos` the document-name list attached to chunk
number i is the slice documentos_nombres[i : i+len(chunk_i)] — indexed by the
chunk's POSITION i rather than by the cumulative count of texts in earlier
chunks; consequently, with distinct document names and the non-empty chunks
this pipeline produces, the names recorded with chunk i coincide with the
names of the documents whose texts chunk i actually contains only when every
preceding chunk holds exactly one text. -/
theorem chunk_docs_alignment
    (textos nombres : List String) (B : Nat) (chunks : List (List String))
    (hch : chunks = crear_chunks_inteligentes textos B)
    (hlen : nombres.length = textos.length) (hnd : nombres.Nodup)
    (hne : [] ∉ chunks)
    (i : Nat) (hi : i < chunks.length) :
    (chunk_docs_asignados nombres chunks)[i]?
      = some (if i + (chunks.getD i []).length ≤ nombres.length
              then (nombres.drop i).take (chunks.getD i []).length
              else nombres.drop i) ∧
    ((chunk_docs_asignados nombres chunks)[i]?
        = some ((nombres.drop (cumLen chunks i)).take (chunks.getD i []).length) →
      ∀ j, j < i → (chunks.getD j []).length = 1) := by
  have hpart1 : (chunk_docs_asignados nombres chunks)[i]?
      = some (if i + (chunks.getD i []).length ≤ nombres.length
              then (nombres.drop i).take (chunks.getD i []).length
              else nombres.drop i) := by
    rw [chunk_docs_asignados, List.getElem?_map, List.getElem?_enum,
        List.getElem?_eq_getElem hi]
    simp [List.getD_eq_getElem?_getD, List.getElem?_eq_getElem hi]
  refine ⟨hpart1, ?_⟩
  intro hget j hj
  have hflat : chunks.flatten = textos := by
    rw [hch]
    simpa [crear_chunks_inteligentes] using flatten_chunkFold B textos [] [] 0
  have htot : (chunks.map List.length).sum = nombres.length := by
    rw [hlen, ← hflat, List.length_flatten]
  have hone : ∀ x ∈ (chunks.take i).map List.length, 1 ≤ x := by
    intro x hx
    obtain ⟨c, hc, rfl⟩ := List.mem_map.mp hx
    have hcm : c ∈ chunks := List.mem_of_mem_take hc
    have hcne : c ≠ [] := fun h => hne (h ▸ hcm)
    exact List.length_pos.mpr hcne
  have hileq : i ≤ chunks.length := Nat.le_of_lt hi
  have hlentake : ((chunks.take i).map List.length).length = i := by
    simp [List.length_take, Nat.min_eq_left hileq]
  have hi_le_c : i ≤ cumLen chunks i := by
    have h := List.length_le_sum_of_one_le _ hone
    rw [hlentake] at h
    exact h
  have hsplit : (chunks.map List.length).sum
      = ((chunks.map List.length).take (i+1)).sum
        + ((chunks.map List.length).drop (i+1)).sum := by
    rw [← List.sum_append, List.take_append_drop]
  have htake_succ : (chunks.map List.length).take (i+1)
      = (chunks.map List.length).take i ++ [chunks[i].length] := by
    rw [List.take_succ, List.getElem?_map, List.getElem?_eq_getElem hi]
    rfl
  have hcum : cumLen chunks i = ((chunks.map List.length).take i).sum := by
    simp [cumLen, List.map_take]
  have hgetDi : (chunks.getD i []).length = chunks[i].length := by
    rw [List.getD_eq_getElem chunks [] hi]
  have hc_add : cumLen chunks i + (chunks.getD i []).length ≤ nombres.length := by
    rw [← htot, hsplit, htake_succ, List.sum_append, hcum, hgetDi]
    simp only [List.sum_cons, List.sum_nil]
    omega
  have hlen_i_pos : 0 < (chunks.getD i []).length := by
    rw [List.getD_eq_getElem chunks [] hi]
    refine List.length_pos.mpr ?_
    intro h
    exact hne (h ▸ List.getElem_mem hi)
  have hi_lt_n : i < nombres.length := by omega
  have hc_lt_n : cumLen chunks i < nombres.length := by omega
  rw [hpart1] at hget
  have heq : (if i + (chunks.getD i []).length ≤ nombres.length
              then (nombres.drop i).take (chunks.getD i []).length
              else nombres.drop i)
      = (nombres.drop (cumLen chunks i)).take (chunks.getD i []).length :=
    Option.some.inj hget
  by_cases hif : i + (chunks.getD i []).length ≤ nombres.length
  · rw [if_pos hif] at heq
    have h0 : ((nombres.drop i).take (chunks.getD i []).length)[0]? = nombres[i]? := by
      rw [List.getElem?_take, if_pos hlen_i_pos, List.getElem?_drop]
      simp
    have h0' : ((nombres.drop (cumLen chunks i)).take
        (chunks.getD i []).length)[0]? = nombres[cumLen chunks i]? := by
      rw [List.getElem?_take, if_pos hlen_i_pos, List.getElem?_drop]
      simp
    have hieq : nombres[i]? = nombres[cumLen chunks i]? := by
      rw [← h0, ← h0', heq]
    rw [List.getElem?_eq_getElem hi_lt_n, List.getElem?_eq_getElem hc_lt_n] at hieq
    have hval : nombres[i] = nombres[cumLen chunks i] := Option.some.inj hieq
    have hic : i = cumLen chunks i := hnd.getElem_inj_iff.mp hval
    have hsum_eq : ((chunks.take i).map List.length).sum
        = ((chunks.take i).map List.length).length := by
      rw [hlentake]
      have h2 : cumLen chunks i = i := hic.symm
      simpa [cumLen] using h2
    have hall := sum_eq_length_all_one _ hone hsum_eq
    have hjlt : j < chunks.length := Nat.lt_trans hj hi
    have hjlen : j < (chunks.take i).length := by
      simp only [List.length_take]
      omega
    have hmem : (chunks.getD j []).length ∈ (chunks.take i).map List.length := by
      refine List.mem_map.mpr ⟨chunks.getD j [], ?_, rfl⟩
      rw [List.getD_eq_getElem chunks [] hjlt]
      have hgt : (chunks.take i)[j] = chunks[j] := List.getElem_take chunks
      rw [← hgt]
      exact List.getElem_mem hjlen
    exact hall _ hmem
  · exfalso
    rw [if_neg hif] at heq
    have hlc := congrArg List.length heq
    rw [List.length_drop, List.length_take, List.length_drop] at hlc
    omega

/-- Witness for C10 at a concrete input: with budget 2 the two one-word texts
split into two singleton chunks, the names attached to chunk 1 coincide with
its actual document, and the theorem yields that chunk 0 holds exactly one
text. -/
theorem chunk_docs_alignment_witness :
    ((crear_chunks_inteligentes ["a", "b"] 2).getD 0 []).length = 1 :=
  (chunk_docs_alignment ["a", "b"] ["n1", "n2"] 2 (crear_chunks_inteligentes ["a", "b"] 2)
    rfl (by decide) (by decide) (by decide) 1 (by decide)).2 (by decide) 0 (by decide)
